import Mathlib

/-!
Shallow embedding of the Poly-Arb-Bot analytics core
(src/server.ts and dashboard/src/App.tsx).

Modelling conventions:
- JavaScript numbers are modelled as exact rationals (ℚ).  The claims under
  study are algebraic identities and invariants of the arithmetic, not
  floating-point rounding facts.
- A loosely-typed record field of type number | string | null | undefined is
  modelled as Option ℚ: a present, parseable value is some q, everything that
  parseNumber would coerce to 0 via the NaN check (missing, null, unparsable
  string) is none.  String-typed fields are Option String, with none for a
  missing field.
- Map objects keyed by strings are modelled as functions String → Option σ;
  values for keys never written are none.  Where only per-key lookups matter
  to the claims, the insertion-order array produced from a Map is abstracted
  to that lookup function.
-/

namespace PolyArb

/-- server.ts parseNumber: null/undefined and unparsable strings coerce to 0,
numbers pass through. -/
def parseNumber (value : Option ℚ) : ℚ := value.getD 0

/-- JS truthiness of an optional string (undefined and the empty string are
falsy). -/
def strTruthy (value : Option String) : Bool :=
  match value with
  | some s => !s.isEmpty
  | none => false

/-- JS `value || fallback` for an optional string against a string fallback. -/
def strOr (value : Option String) (fallback : String) : String :=
  match value with
  | some s => if s.isEmpty then fallback else s
  | none => fallback

/-- Character-list test: pat is an initial segment of s. -/
def listStartsWith : List Char → List Char → Bool
  | _, [] => true
  | [], _ :: _ => false
  | c :: cs, p :: ps => c == p && listStartsWith cs ps

/-- Character-list test: pat occurs contiguously inside s. -/
def listContainsSub (pat : List Char) : List Char → Bool
  | [] => listStartsWith [] pat
  | c :: cs => listStartsWith (c :: cs) pat || listContainsSub pat cs

/-- JS String.prototype.includes, structurally over the character data. -/
def strContains (s pat : String) : Bool :=
  listContainsSub pat.data s.data

/-- JS String.prototype.toLowerCase (ASCII), structurally over the data. -/
def jsToLower (s : String) : String :=
  String.mk (s.data.map Char.toLower)

/-- JS String.prototype.toUpperCase (ASCII), structurally over the data. -/
def jsToUpper (s : String) : String :=
  String.mk (s.data.map Char.toUpper)

/-- Normalized trade side. -/
inductive Side where
  | buy
  | sell
deriving DecidableEq

/-- server.ts normalizeSide: any side whose lowercase form is not exactly
"sell" (including a missing or empty side) is a buy. -/
def normalizeSide (side : Option String) : Side :=
  match side with
  | some s => if !s.isEmpty && (jsToLower s == "sell") then Side.sell else Side.buy
  | none => Side.buy

/-- server.ts normalizeTimestampMs: second-resolution stamps are scaled to
milliseconds. -/
def normalizeTimestampMs (timestamp : ℚ) : ℚ :=
  if timestamp < 1000000000000 then timestamp * 1000 else timestamp

/-- server.ts normalizeTimestampSeconds (Math.floor is exact integer floor). -/
def normalizeTimestampSeconds (timestamp : ℚ) : ℤ :=
  if timestamp ≥ 1000000000000 then ⌊timestamp / 1000⌋ else ⌊timestamp⌋

/-- One raw record from the upstream activity feed (the loosely-typed `any`
shape consumed by the aggregator and the collectors). -/
structure RawActivity where
  id : Option String := none
  type : Option String := none
  side : Option String := none
  usdcSize : Option ℚ := none
  amount : Option ℚ := none
  value : Option ℚ := none
  usdcAmount : Option ℚ := none
  amountUsd : Option ℚ := none
  cashDelta : Option ℚ := none
  delta : Option ℚ := none
  pnl : Option ℚ := none
  timestamp : Option ℚ := none
  slug : Option String := none
  eventSlug : Option String := none
  title : Option String := none
  outcome : Option String := none
  asset : Option String := none
  market : Option String := none
  price : Option ℚ := none
  size : Option ℚ := none
  transactionHash : Option String := none
deriving DecidableEq

/-- A mapped TradeActivity record (output of mapActivityItem; id is always a
string there). -/
structure TradeActivity where
  id : String := ""
  userAddress : String := ""
  title : Option String := none
  slug : Option String := none
  eventSlug : Option String := none
  side : Option String := none
  outcome : Option String := none
  asset : Option String := none
  market : Option String := none
  price : Option ℚ := none
  size : Option ℚ := none
  usdcSize : Option ℚ := none
  timestamp : Option ℚ := none
  transactionHash : Option String := none
deriving DecidableEq

/-- JS template interpolation of an optional number (undefined prints as
"undefined"). -/
def jsTemplateNum (value : Option ℚ) : String :=
  match value with
  | some q => toString q
  | none => "undefined"

/-- server.ts mapActivityItem: raw feed record to TradeActivity. -/
def mapActivityItem (item : RawActivity) (address : String) : TradeActivity :=
  { id := strOr item.id
      (if strTruthy item.transactionHash then (item.transactionHash.getD "")
       else jsTemplateNum item.timestamp)
    userAddress := address
    title := if strTruthy item.title then item.title
      else if strTruthy item.slug then item.slug else item.asset
    slug := item.slug
    eventSlug := item.eventSlug
    side := item.side
    outcome := item.outcome
    asset := item.asset
    market := item.market
    price := item.price
    size := item.size
    usdcSize := item.usdcSize
    timestamp := item.timestamp
    transactionHash := item.transactionHash }

/-- App.tsx getTradeKey: id, else transactionHash, else a composite of
userAddress, timestamp and usdcSize (missing pieces print as empty). -/
def getTradeKey (trade : TradeActivity) : String :=
  if !trade.id.isEmpty then trade.id
  else if strTruthy trade.transactionHash then trade.transactionHash.getD ""
  else trade.userAddress ++ "-"
    ++ (match trade.timestamp with | some q => toString q | none => "") ++ "-"
    ++ (match trade.usdcSize with | some q => toString q | none => "")

/-- server.ts getPositionKey: prefer the asset id, else a composite of
(slug | title | eventSlug | sentinel) and (outcome | sentinel). -/
def getPositionKey (trade : TradeActivity) : String :=
  if strTruthy trade.asset then trade.asset.getD ""
  else
    (strOr trade.slug (strOr trade.title (strOr trade.eventSlug "unknown-market")))
      ++ ":" ++ strOr trade.outcome "unknown-outcome"

/-- Insertion into a list sorted by the boolean relation le (stable). -/
def insertSorted (le : α → α → Bool) (x : α) : List α → List α
  | [] => [x]
  | y :: ys => if le x y then x :: y :: ys else y :: insertSorted le x ys

/-- Stable insertion sort by the boolean relation le. -/
def insertionSort (le : α → α → Bool) : List α → List α
  | [] => []
  | x :: xs => insertSorted le x (insertionSort le xs)

/-- Comparator used by computePositionHistory / computePositionSummary:
ascending normalized-millisecond timestamp, ties broken by arrival index. -/
def tradeSortLe (a b : ℕ × TradeActivity) : Bool :=
  let ka := normalizeTimestampMs (parseNumber a.2.timestamp)
  let kb := normalizeTimestampMs (parseNumber b.2.timestamp)
  decide (ka < kb ∨ (ka = kb ∧ a.1 ≤ b.1))

/-- The sorted replay order of both position functions. -/
def sortTrades (trades : List TradeActivity) : List TradeActivity :=
  (insertionSort tradeSortLe trades.enum).map (fun p => p.2)

/-- The resolved numeric trade data (lines 391-400 / 505-514 of server.ts):
derive size from notional/price or price from notional/size when missing. -/
structure ResolvedTrade where
  side : Side
  tradePrice : ℚ
  tradeSize : ℚ
  tradeUsdc : ℚ
deriving DecidableEq

/-- Side/price/size/notional resolution shared by both position functions. -/
def resolveTrade (trade : TradeActivity) : ResolvedTrade :=
  let side := normalizeSide trade.side
  let tradePrice0 := parseNumber trade.price
  let tradeUsdc := parseNumber trade.usdcSize
  let tradeSize0 := parseNumber trade.size
  let tradeSize :=
    if tradeSize0 = 0 ∧ tradePrice0 > 0 ∧ tradeUsdc > 0 then tradeUsdc / tradePrice0
    else tradeSize0
  let tradePrice :=
    if tradePrice0 = 0 ∧ tradeSize > 0 ∧ tradeUsdc > 0 then tradeUsdc / tradeSize
    else tradePrice0
  ⟨side, tradePrice, tradeSize, tradeUsdc⟩

/-- Per-instrument state threaded by computePositionHistory. -/
structure HistPositionState where
  size : ℚ
  costBasisUsd : ℚ
  avgPrice : ℚ
  realizedPnl : ℚ
  asset : String
  market : String
  slug : Option String
  outcome : String
deriving DecidableEq

/-- Fresh state for a key first seen on this trade (lines 403-412). -/
def initHistState (trade : TradeActivity) : HistPositionState :=
  { size := 0, costBasisUsd := 0, avgPrice := 0, realizedPnl := 0
    asset := strOr trade.asset ""
    market := strOr trade.title (strOr trade.market (strOr trade.slug (strOr trade.eventSlug "")))
    slug := if strTruthy trade.slug then trade.slug
      else if strTruthy trade.eventSlug then trade.eventSlug else none
    outcome := strOr trade.outcome "" }

/-- The numeric core of one computePositionHistory step (lines 414-437):
returns the post-event state and the realized delta of this event.  A sell is
realized against the full trade size whenever any size is open; the result is
then clamped at zero. -/
def applyTradeToPosition (existing : HistPositionState) (r : ResolvedTrade) :
    HistPositionState × ℚ :=
  let t :=
    if r.side = Side.sell then
      if r.tradeSize > 0 ∧ existing.size > 0 then
        let avgCost := existing.costBasisUsd / existing.size
        (r.tradeUsdc - avgCost * r.tradeSize,
          existing.size - r.tradeSize,
          existing.costBasisUsd - avgCost * r.tradeSize)
      else ((0 : ℚ), existing.size, existing.costBasisUsd)
    else ((0 : ℚ), existing.size + r.tradeSize, existing.costBasisUsd + r.tradeUsdc)
  let realizedDelta := t.1
  let clamped := if t.2.1 ≤ 0 then ((0 : ℚ), (0 : ℚ)) else (t.2.1, t.2.2)
  let nextSize := clamped.1
  let nextCostBasis := clamped.2
  let nextAvgPrice := if nextSize ≠ 0 then |nextCostBasis / nextSize| else 0
  ({ existing with
      size := nextSize
      costBasisUsd := nextCostBasis
      avgPrice := nextAvgPrice
      realizedPnl := existing.realizedPnl + realizedDelta },
    realizedDelta)

/-- One immutable snapshot per processed event (PositionHistoryEntry). -/
structure PositionHistoryEntry where
  key : String
  asset : String
  market : String
  slug : Option String
  outcome : String
  side : Side
  tradePrice : ℚ
  tradeSize : ℚ
  tradeUsdc : ℚ
  timestamp : ℚ
  positionSize : ℚ
  positionCostBasis : ℚ
  positionAvgPrice : ℚ
  realizedPnl : ℚ
  cumulativeRealizedPnl : ℚ
  status : String
deriving DecidableEq

/-- One iteration of the computePositionHistory loop (lines 390-469). -/
def histFoldStep (acc : (String → Option HistPositionState) × List PositionHistoryEntry)
    (trade : TradeActivity) :
    (String → Option HistPositionState) × List PositionHistoryEntry :=
  let positions := acc.1
  let r := resolveTrade trade
  let key := getPositionKey trade
  let existing := (positions key).getD (initHistState trade)
  let stepped := applyTradeToPosition existing r
  let next0 := stepped.1
  let realizedDelta := stepped.2
  let asset := if existing.asset.isEmpty then strOr trade.asset "" else existing.asset
  let market := if existing.market.isEmpty then
      strOr trade.title (strOr trade.market (strOr trade.slug (strOr trade.eventSlug "")))
    else existing.market
  let slug := if strTruthy existing.slug then existing.slug
    else if strTruthy trade.slug then trade.slug
    else if strTruthy trade.eventSlug then trade.eventSlug else none
  let outcome := if existing.outcome.isEmpty then strOr trade.outcome "" else existing.outcome
  let entry : PositionHistoryEntry :=
    { key := key, asset := asset, market := market, slug := slug, outcome := outcome
      side := r.side, tradePrice := r.tradePrice, tradeSize := r.tradeSize
      tradeUsdc := r.tradeUsdc, timestamp := parseNumber trade.timestamp
      positionSize := next0.size, positionCostBasis := next0.costBasisUsd
      positionAvgPrice := next0.avgPrice, realizedPnl := realizedDelta
      cumulativeRealizedPnl := next0.realizedPnl
      status := if next0.size = 0 then "CLOSED" else "OPEN" }
  let nextState := { next0 with asset := asset, market := market, slug := slug, outcome := outcome }
  (fun k => if k = key then some nextState else positions k, acc.2 ++ [entry])

/-- server.ts computePositionHistory: replay in sorted order, one history
entry per event. -/
def computePositionHistory (trades : List TradeActivity) : List PositionHistoryEntry :=
  ((sortTrades trades).foldl histFoldStep (fun _ => none, [])).2

/-- The per-instrument position map after replaying a prefix of the sorted
events in computePositionHistory. -/
def histPositionsAfter (trades : List TradeActivity) (n : ℕ) :
    String → Option HistPositionState :=
  (((sortTrades trades).take n).foldl histFoldStep (fun _ => none, [])).1

/-- Per-instrument accumulator of computePositionSummary (lines 484-502). -/
structure SummaryPositionState where
  key : String
  asset : String
  market : String
  slug : Option String
  outcome : String
  buySize : ℚ
  buyCost : ℚ
  sellSize : ℚ
  sellProceeds : ℚ
  openSize : ℚ
  costBasisUsd : ℚ
  realizedPnl : ℚ
  lastPrice : Option ℚ
  lastTradeAt : Option ℚ
deriving DecidableEq

/-- Fresh accumulator for a key first seen on this trade (lines 517-532). -/
def initSummaryState (trade : TradeActivity) : SummaryPositionState :=
  { key := getPositionKey trade
    asset := strOr trade.asset ""
    market := strOr trade.title (strOr trade.market (strOr trade.slug (strOr trade.eventSlug "")))
    slug := if strTruthy trade.slug then trade.slug
      else if strTruthy trade.eventSlug then trade.eventSlug else none
    outcome := strOr trade.outcome ""
    buySize := 0, buyCost := 0, sellSize := 0, sellProceeds := 0
    openSize := 0, costBasisUsd := 0, realizedPnl := 0
    lastPrice := none, lastTradeAt := none }

/-- The mutation computePositionSummary performs on one accumulator for one
event (lines 534-560); ts is parseNumber of the raw trade timestamp.  Note
that only the sell branch clamps openSize and costBasisUsd at zero. -/
def summaryApplyTrade (existing : SummaryPositionState) (r : ResolvedTrade) (ts : ℚ) :
    SummaryPositionState :=
  let e1 := if r.tradePrice > 0 then { existing with lastPrice := some r.tradePrice } else existing
  let e2 := if ts > 0 then { e1 with lastTradeAt := some ts } else e1
  if r.side = Side.buy then
    { e2 with
        buySize := e2.buySize + r.tradeSize
        buyCost := e2.buyCost + r.tradeUsdc
        openSize := e2.openSize + r.tradeSize
        costBasisUsd := e2.costBasisUsd + r.tradeUsdc }
  else
    let e3 := { e2 with
        sellSize := e2.sellSize + r.tradeSize
        sellProceeds := e2.sellProceeds + r.tradeUsdc }
    if e3.openSize > 0 ∧ r.tradeSize > 0 then
      let avgCost := e3.costBasisUsd / e3.openSize
      let e4 := { e3 with
          realizedPnl := e3.realizedPnl + (r.tradeUsdc - avgCost * r.tradeSize)
          openSize := e3.openSize - r.tradeSize
          costBasisUsd := e3.costBasisUsd - avgCost * r.tradeSize }
      if e4.openSize ≤ 0 then { e4 with openSize := 0, costBasisUsd := 0 } else e4
    else e3

/-- One iteration of the computePositionSummary loop over the position map. -/
def summaryFoldStep (positions : String → Option SummaryPositionState)
    (trade : TradeActivity) : String → Option SummaryPositionState :=
  let r := resolveTrade trade
  let key := getPositionKey trade
  let existing := (positions key).getD (initSummaryState trade)
  let next := summaryApplyTrade existing r (parseNumber trade.timestamp)
  fun k => if k = key then some next else positions k

/-- The final per-key accumulators of computePositionSummary.  The source then
lists the map values in insertion order; the claims only consult per-key
state, so the map lookup is exposed directly. -/
def summaryPositions (trades : List TradeActivity) : String → Option SummaryPositionState :=
  (sortTrades trades).foldl summaryFoldStep (fun _ => none)

/-- Final PositionSummaryEntry derived from one accumulator (lines 565-593). -/
structure PositionSummaryEntry where
  key : String
  buySize : ℚ
  buyCost : ℚ
  avgEntry : ℚ
  sellSize : ℚ
  sellProceeds : ℚ
  avgExit : ℚ
  realizedPnl : ℚ
  unrealizedPnl : Option ℚ
  totalPnl : ℚ
  openSize : ℚ
  lastPrice : Option ℚ
  status : String
deriving DecidableEq

/-- Entry derivation at end of replay (lines 565-593); lastPrice is JS-truthy
tested, so a recorded price of 0 also yields a null unrealized PnL. -/
def summaryEntryOf (pos : SummaryPositionState) : PositionSummaryEntry :=
  let avgEntry := if pos.buySize > 0 then pos.buyCost / pos.buySize else 0
  let avgExit := if pos.sellSize > 0 then pos.sellProceeds / pos.sellSize else 0
  let unrealized :=
    if pos.openSize > 0 ∧ parseNumber pos.lastPrice ≠ 0 then
      some (parseNumber pos.lastPrice * pos.openSize - pos.costBasisUsd)
    else none
  { key := pos.key
    buySize := pos.buySize, buyCost := pos.buyCost, avgEntry := avgEntry
    sellSize := pos.sellSize, sellProceeds := pos.sellProceeds, avgExit := avgExit
    realizedPnl := pos.realizedPnl
    unrealizedPnl := unrealized
    totalPnl := pos.realizedPnl + unrealized.getD 0
    openSize := pos.openSize
    lastPrice := pos.lastPrice
    status := if pos.openSize > 0 then "OPEN" else "CLOSED" }

/-- server.ts computePositionSummary, exposed as the per-key entry lookup. -/
def computePositionSummaryAt (trades : List TradeActivity) (key : String) :
    Option PositionSummaryEntry :=
  (summaryPositions trades key).map summaryEntryOf

/-- server.ts ACTIVITY_POSITIVE_TYPES (default environment). -/
def ACTIVITY_POSITIVE_TYPES : List String :=
  ["REDEEM", "SETTLEMENT", "SETTLE", "CLAIM", "PAYOUT", "REWARD",
   "MAKER_REBATE", "REBATE", "REFUND", "CREDIT"]

/-- server.ts ACTIVITY_NEGATIVE_TYPES. -/
def ACTIVITY_NEGATIVE_TYPES : List String :=
  ["FEE", "MAKER_FEE", "TAKER_FEE", "PENALTY", "DEBIT"]

/-- server.ts ACTIVITY_IGNORE_TYPES. -/
def ACTIVITY_IGNORE_TYPES : List String :=
  ["TRANSFER", "DEPOSIT", "WITHDRAWAL", "WITHDRAW"]

/-- server.ts normalizeActivityType: non-strings normalize to the empty
string, strings are uppercased. -/
def normalizeActivityType (value : Option String) : String :=
  match value with
  | some s => jsToUpper s
  | none => ""

/-- server.ts getActivityAmount: first present field of the fallback chain,
numerically parsed. -/
def getActivityAmount (item : RawActivity) : ℚ :=
  parseNumber (item.usdcSize <|> item.amount <|> item.value <|> item.usdcAmount
    <|> item.amountUsd <|> item.cashDelta <|> item.delta <|> item.pnl)

/-- server.ts isIgnoredActivityType. -/
def isIgnoredActivityType (type : String) : Bool :=
  ACTIVITY_IGNORE_TYPES.contains type
    || strContains type "TRANSFER" || strContains type "WITHDRAW"
    || strContains type "DEPOSIT" || strContains type "BRIDGE"

/-- server.ts isPositiveActivityType.  Note: REFUND is only an exact match;
the substring tests cover REDEEM/REBATE/REWARD/PAYOUT/CLAIM/SETTLE/CREDIT. -/
def isPositiveActivityType (type : String) : Bool :=
  ACTIVITY_POSITIVE_TYPES.contains type
    || strContains type "REDEEM" || strContains type "REBATE"
    || strContains type "REWARD" || strContains type "PAYOUT"
    || strContains type "CLAIM" || strContains type "SETTLE"
    || strContains type "CREDIT"

/-- server.ts isNegativeActivityType. -/
def isNegativeActivityType (type : String) : Bool :=
  ACTIVITY_NEGATIVE_TYPES.contains type
    || strContains type "FEE" || strContains type "PENALTY"
    || strContains type "DEBIT"

/-- server.ts getActivityNetDelta (lines 1110-1145): the signed cash delta of
one activity record. -/
def getActivityNetDelta (activity : RawActivity) : ℚ :=
  let amountRaw := getActivityAmount activity
  if amountRaw = 0 then 0
  else if amountRaw < 0 then amountRaw
  else
    let type := normalizeActivityType activity.type
    if type = "TRADE" then
      match activity.side with
      | some s => if normalizeSide (some s) = Side.buy then -amountRaw else amountRaw
      | none => 0
    else
      match activity.side with
      | some s => if normalizeSide (some s) = Side.buy then -amountRaw else amountRaw
      | none =>
        if isIgnoredActivityType type then 0
        else if isPositiveActivityType type then amountRaw
        else if isNegativeActivityType type then -amountRaw
        else 0

/-- The amended-claim classification of the per-event signed cash delta,
stated independently with explicit pattern lists: an explicit negative
amount as-is; a zero amount contributes 0; a TRADE with a string side signs
the notional by side; any other event with a string side uses the same rule;
otherwise transfer-like types (exact TRANSFER/DEPOSIT/WITHDRAWAL/WITHDRAW or
containing TRANSFER/WITHDRAW/DEPOSIT/BRIDGE) are ignored first, then types
in the exact positive set or containing
REDEEM/REBATE/REWARD/PAYOUT/CLAIM/SETTLE/CREDIT are positive (REFUND only as
an exact match), then types in the exact negative set or containing
FEE/PENALTY/DEBIT are negative, and anything else contributes 0. -/
def claimNetDelta (activity : RawActivity) : ℚ :=
  let amount := getActivityAmount activity
  if amount = 0 then 0
  else if amount < 0 then amount
  else if normalizeActivityType activity.type = "TRADE" then
    match activity.side with
    | some s => if normalizeSide (some s) = Side.buy then -amount else amount
    | none => 0
  else
    match activity.side with
    | some s => if normalizeSide (some s) = Side.buy then -amount else amount
    | none =>
      let t := normalizeActivityType activity.type
      if ACTIVITY_IGNORE_TYPES.contains t
          || ["TRANSFER", "WITHDRAW", "DEPOSIT", "BRIDGE"].any (fun p => strContains t p) then 0
      else if ACTIVITY_POSITIVE_TYPES.contains t
          || ["REDEEM", "REBATE", "REWARD", "PAYOUT", "CLAIM", "SETTLE",
              "CREDIT"].any (fun p => strContains t p) then amount
      else if ACTIVITY_NEGATIVE_TYPES.contains t
          || ["FEE", "PENALTY", "DEBIT"].any (fun p => strContains t p) then -amount
      else 0

/-- One daily bucket of computeLifetimeAnalytics.  The UTC calendar date
produced by toISOString().slice(0, 10) is modelled by the UTC day index
floor(ms / 86400000): for the bucketed range (timestamps > 0) day indices and
ISO date strings are in order-preserving bijection, so grouping and the final
lexicographic date sort are preserved exactly. -/
structure DailyBucket where
  date : ℤ
  net : ℚ
  profit : ℚ
  loss : ℚ
  events : ℕ
deriving DecidableEq

/-- The UTC day index of a raw activity timestamp (after millisecond
normalization), modelling toISOString().slice(0, 10). -/
def activityDateKey (timestamp : ℚ) : ℤ :=
  ⌊normalizeTimestampMs timestamp / 86400000⌋

/-- Add one delta into the bucket map (Map.get / Map.set preserving insertion
order, modelled as an association list updated in place). -/
def bucketAdd (buckets : List DailyBucket) (date : ℤ) (delta : ℚ) : List DailyBucket :=
  match buckets with
  | [] =>
    [{ date := date, net := delta
       profit := if delta > 0 then delta else 0
       loss := if delta > 0 then 0 else |delta|
       events := 1 }]
  | b :: rest =>
    if b.date = date then
      { b with
          net := b.net + delta
          profit := b.profit + (if delta > 0 then delta else 0)
          loss := b.loss + (if delta > 0 then 0 else |delta|)
          events := b.events + 1 } :: rest
    else b :: bucketAdd rest date delta

/-- Running accumulator of the main loop of computeLifetimeAnalytics
(lines 1157-1197): totalProfit, totalLoss, netPnl and the bucket map. -/
structure LifetimeTotals where
  totalProfit : ℚ
  totalLoss : ℚ
  netPnl : ℚ
  buckets : List DailyBucket
deriving DecidableEq

/-- One iteration of the computeLifetimeAnalytics loop: zero deltas are
skipped entirely; non-positive timestamps update the totals but no bucket. -/
def lifetimeFoldStep (acc : LifetimeTotals) (activity : RawActivity) : LifetimeTotals :=
  let delta := getActivityNetDelta activity
  if delta = 0 then acc
  else
    let acc1 := { acc with
        netPnl := acc.netPnl + delta
        totalProfit := acc.totalProfit + (if delta > 0 then delta else 0)
        totalLoss := acc.totalLoss + (if delta > 0 then 0 else |delta|) }
    let timestamp := parseNumber activity.timestamp
    if timestamp > 0 then
      { acc1 with buckets := bucketAdd acc1.buckets (activityDateKey timestamp) delta }
    else acc1

/-- Sort order of computeLifetimeAnalytics (line 1154): ascending raw parsed
timestamp, ties broken by arrival index. -/
def activitySortLe (a b : ℕ × RawActivity) : Bool :=
  let ka := parseNumber a.2.timestamp
  let kb := parseNumber b.2.timestamp
  decide (ka < kb ∨ (ka = kb ∧ a.1 ≤ b.1))

/-- The replay order of computeLifetimeAnalytics. -/
def lifetimeSorted (activities : List RawActivity) : List RawActivity :=
  (insertionSort activitySortLe activities.enum).map (fun p => p.2)

/-- Totals and bucket map after the main loop. -/
def lifetimeFold (activities : List RawActivity) : LifetimeTotals :=
  (lifetimeSorted activities).foldl lifetimeFoldStep
    { totalProfit := 0, totalLoss := 0, netPnl := 0, buckets := [] }

/-- Date-ascending bucket order used by localeCompare (line 1199). -/
def bucketSortLe (a b : DailyBucket) : Bool := decide (a.date ≤ b.date)

/-- The finished, date-ascending daily sequence. -/
def lifetimeDaily (activities : List RawActivity) : List DailyBucket :=
  insertionSort bucketSortLe (lifetimeFold activities).buckets

/-- Sum of positive daily nets (line 1201). -/
def lifetimeTotalPositive (daily : List DailyBucket) : ℚ :=
  daily.foldl (fun sum day => sum + (if day.net > 0 then day.net else 0)) 0

/-- Sum of absolute negative daily nets (line 1202). -/
def lifetimeTotalNegative (daily : List DailyBucket) : ℚ :=
  daily.foldl (fun sum day => sum + (if day.net < 0 then -day.net else 0)) 0

/-- profitFactor (line 1206): null unless the loss-day denominator is
positive. -/
def lifetimeProfitFactor (daily : List DailyBucket) : Option ℚ :=
  if lifetimeTotalNegative daily > 0 then
    some (lifetimeTotalPositive daily / lifetimeTotalNegative daily)
  else none

/-- One day of the drawdown scan of lines 1213-1222 over the state
(cumulative, peak, maxDrawdown). -/
def drawdownStep (acc : ℚ × ℚ × ℚ) (day : DailyBucket) : ℚ × ℚ × ℚ :=
  let cumulative := acc.1 + day.net
  let peak := if cumulative > acc.2.1 then cumulative else acc.2.1
  let drawdown := peak - cumulative
  (cumulative, peak, if drawdown > acc.2.2 then drawdown else acc.2.2)

/-- The drawdown scan of lines 1210-1222: cumulative, peak and maxDrawdown
all start at 0. -/
def drawdownScan (daily : List DailyBucket) : ℚ × ℚ × ℚ :=
  daily.foldl drawdownStep (0, 0, 0)

/-- maxDrawdown (line 1223): null when there are no active days. -/
def lifetimeMaxDrawdown (daily : List DailyBucket) : Option ℚ :=
  if daily.length > 0 then some (drawdownScan daily).2.2 else none

/-- Sample mean of the daily nets (line 1227). -/
def sampleMean (nets : List ℚ) : ℚ :=
  nets.foldl (· + ·) 0 / (nets.length : ℚ)

/-- Sample variance of the daily nets with denominator n - 1 (lines 1228-1230). -/
def sampleVariance (nets : List ℚ) : ℚ :=
  (nets.foldl (fun sum x => sum + (x - sampleMean nets) ^ 2) 0) / ((nets.length : ℚ) - 1)

/-- sharpeRatio (lines 1225-1235): null unless there are at least two active
days and the sample standard deviation is positive; else annualized by
sqrt 365. -/
noncomputable def sharpeRatio (nets : List ℚ) : Option ℝ :=
  if 2 ≤ nets.length then
    let stdev := Real.sqrt ((sampleVariance nets : ℚ) : ℝ)
    haveI : Decidable (0 < stdev) := Classical.propDecidable _
    if 0 < stdev then some (((sampleMean nets : ℚ) : ℝ) / stdev * Real.sqrt 365)
    else none
  else none

/-- The full result record of computeLifetimeAnalytics (daily list included;
the remaining echo fields follow the source lines 1199-1256). -/
structure LifetimeAnalytics where
  totalProfit : ℚ
  totalLoss : ℚ
  netPnl : ℚ
  daily : List DailyBucket
  winRate : Option ℚ
  profitFactor : Option ℚ
  avgWinDay : Option ℚ
  avgLossDay : Option ℚ
  maxDrawdown : Option ℚ
  sharpeRatio : Option ℝ
  lastDayNet : Option ℚ
  activeDays : ℕ

/-- server.ts computeLifetimeAnalytics, assembled from the loop and the
derived statistics (first/last trade timestamps omitted: no claim consults
them). -/
noncomputable def computeLifetimeAnalytics (activities : List RawActivity) : LifetimeAnalytics :=
  let totals := lifetimeFold activities
  let daily := lifetimeDaily activities
  let activeDays := daily.length
  let winDays := (daily.filter (fun day => decide (day.net > 0))).length
  let lossDays := (daily.filter (fun day => decide (day.net < 0))).length
  { totalProfit := totals.totalProfit
    totalLoss := totals.totalLoss
    netPnl := totals.netPnl
    daily := daily
    winRate := if activeDays > 0 then some ((winDays : ℚ) / (activeDays : ℚ)) else none
    profitFactor := lifetimeProfitFactor daily
    avgWinDay := if winDays > 0 then some (lifetimeTotalPositive daily / (winDays : ℚ)) else none
    avgLossDay := if lossDays > 0 then some (lifetimeTotalNegative daily / (lossDays : ℚ)) else none
    maxDrawdown := lifetimeMaxDrawdown daily
    sharpeRatio := sharpeRatio (daily.map (fun day => day.net))
    lastDayNet := (daily.getLast?).map (fun day => day.net)
    activeDays := activeDays }

/-- server.ts getActivityTimestampSeconds: falsy parsed timestamps (missing,
unparsable, zero) yield null. -/
def getActivityTimestampSeconds (item : RawActivity) : Option ℤ :=
  let raw := parseNumber item.timestamp
  if raw = 0 then none else some (normalizeTimestampSeconds raw)

/-- server.ts getOldestTimestampSeconds: minimum parseable timestamp of a
page, or null. -/
def getOldestTimestampSeconds (items : List RawActivity) : Option ℤ :=
  items.foldl
    (fun oldest item =>
      match getActivityTimestampSeconds item with
      | none => oldest
      | some timestamp =>
        match oldest with
        | none => some timestamp
        | some o => if timestamp < o then some timestamp else some o)
    none

/-- server.ts isTimestampInRange: closed interval, null timestamps excluded. -/
def isTimestampInRange (timestamp : Option ℤ) (startTs endTs : Option ℤ) : Bool :=
  match timestamp with
  | none => false
  | some ts =>
    (match startTs with | some s => decide (s ≤ ts) | none => true)
      && (match endTs with | some e => decide (ts ≤ e) | none => true)

/-- server.ts ACTIVITY_RANGE_BATCH_SIZE (default environment: 500). -/
def ACTIVITY_RANGE_BATCH_SIZE : ℕ := 500

/-- server.ts ACTIVITY_RANGE_MAX_EVENTS (default environment: 5000). -/
def ACTIVITY_RANGE_MAX_EVENTS : ℕ := 5000

/-- The slug filter actually applied: trimmed, lowercased, empty treated as
absent (the JS truthiness test on slugFilter). -/
def slugFilterOf (slug : Option String) : Option String :=
  match slug with
  | some s => let t := jsToLower s.trim; if t.isEmpty then none else some t
  | none => none

/-- The per-record filter of both collectors (lines 2019-2029): range check
first, then optional substring match against slug/eventSlug/title. -/
def activityRangeFilter (startTs endTs : Option ℤ) (slugFilter : Option String)
    (item : RawActivity) : Bool :=
  if !isTimestampInRange (getActivityTimestampSeconds item) startTs endTs then false
  else
    match slugFilter with
    | some f =>
      strContains (jsToLower (strOr item.slug "" ++ " " ++ strOr item.eventSlug "" ++ " "
        ++ strOr item.title "")) f
    | none => true

/-- Arguments of fetchActivityByUserWithRange (offset already floored and
clamped nonnegative by the route). -/
structure ActivityRangeParams where
  address : String
  limit : ℕ
  slug : Option String := none
  offset : ℕ := 0
  startTs : Option ℤ := none
  endTs : Option ℤ := none

/-- Result of fetchActivityByUserWithRange. -/
structure ActivityRangeResult where
  trades : List TradeActivity
  nextOffset : ℕ
  exhausted : Bool
deriving DecidableEq

/-- The while loop of fetchActivityByUserWithRange (lines 2006-2073), with the
upstream feed abstracted as a pure page function (offset, limit) → records.
The fuel argument only bounds the recursion; the top-level entry point passes
enough fuel that the loop always reaches one of its own exits first (each
iteration grows trades toward maxEvents or the consecutive-empty counter
toward its bound of 25). -/
def rangeLoop (feed : ℕ → ℕ → List RawActivity) (address : String)
    (startTs endTs : Option ℤ) (slugFilter : Option String) (maxEvents : ℕ) :
    ℕ → List TradeActivity → ℕ → ℕ → ActivityRangeResult
  | 0, trades, currentOffset, _ => ⟨trades, currentOffset, false⟩
  | fuel + 1, trades, currentOffset, consecutiveEmpty =>
    if trades.length < maxEvents then
      let batchLimit := min ACTIVITY_RANGE_BATCH_SIZE (maxEvents - trades.length)
      let data := feed currentOffset batchLimit
      if data.length = 0 then ⟨trades, currentOffset, true⟩
      else
        let filtered := data.filter (activityRangeFilter startTs endTs slugFilter)
        let newTrades := trades
          ++ (filtered.take (maxEvents - trades.length)).map (fun item => mapActivityItem item address)
        let consecutiveEmpty2 := if filtered.length = 0 then consecutiveEmpty + 1 else 0
        let nextOffset := currentOffset + data.length
        if data.length < batchLimit then ⟨newTrades, nextOffset, true⟩
        else if 25 ≤ consecutiveEmpty2 then ⟨newTrades, nextOffset, true⟩
        else if (match startTs, getOldestTimestampSeconds data with
          | some s, some o => decide (o < s)
          | _, _ => false) then ⟨newTrades, nextOffset, true⟩
        else rangeLoop feed address startTs endTs slugFilter maxEvents
          fuel newTrades nextOffset consecutiveEmpty2
    else ⟨trades, currentOffset, false⟩

/-- server.ts fetchActivityByUserWithRange (offset-mode collection). -/
def fetchActivityByUserWithRange (feed : ℕ → ℕ → List RawActivity)
    (params : ActivityRangeParams) : ActivityRangeResult :=
  let maxEvents := min (max params.limit 1) ACTIVITY_RANGE_MAX_EVENTS
  rangeLoop feed params.address params.startTs params.endTs (slugFilterOf params.slug)
    maxEvents ((maxEvents + 1) * 26) [] params.offset 0

/-- App.tsx EXPORT_BATCH_SIZE. -/
def EXPORT_BATCH_SIZE : ℕ := 500

/-- App.tsx EXPORT_MAX_TRADES. -/
def EXPORT_MAX_TRADES : ℕ := 100000

/-- One record of the seenIds filter: keep it only when its getTradeKey is
new, extending the seen set. -/
def dedupStep (acc : List String × List TradeActivity) (trade : TradeActivity) :
    List String × List TradeActivity :=
  let key := getTradeKey trade
  if acc.1.contains key then acc else (key :: acc.1, acc.2 ++ [trade])

/-- The seenIds filter shared by the client loops (App.tsx lines 5316-5323 and
6276-6284): keep only records whose getTradeKey is new, extending the seen
set as the batch is scanned. -/
def dedupBatch (seen : List String) (batch : List TradeActivity) :
    List String × List TradeActivity :=
  batch.foldl dedupStep (seen, [])

/-- The while loop of App.tsx handleFullExport (lines 5304-5337): offset-mode
client pagination with seenIds deduplication.  The page feed is abstracted as
offset → batch; the boolean result is the truncated flag. -/
def exportLoop (feed : ℕ → List TradeActivity) :
    ℕ → List TradeActivity → ℕ → List String → List TradeActivity × Bool
  | 0, trades, _, _ => (trades, false)
  | fuel + 1, trades, offset, seen =>
    let batch := feed offset
    if batch.length = 0 then (trades, false)
    else
      let stepped := dedupBatch seen batch
      let fresh := stepped.2
      if fresh.length = 0 then (trades, false)
      else
        let newTrades := trades ++ fresh
        if batch.length < EXPORT_BATCH_SIZE then (newTrades, false)
        else if EXPORT_MAX_TRADES ≤ newTrades.length then (newTrades, true)
        else exportLoop feed fuel newTrades (offset + batch.length) stepped.1

/-- App.tsx handleFullExport collection loop from a fresh state.  Every
productive iteration adds at least one trade and the loop stops at
EXPORT_MAX_TRADES, so the supplied fuel is never exhausted first. -/
def handleFullExport (feed : ℕ → List TradeActivity) : List TradeActivity × Bool :=
  exportLoop feed (EXPORT_MAX_TRADES + 2) [] 0 []

/-- One /api/activity cursor-mode response as the client sees it (nextEnd is
used only when it is a number). -/
structure CursorPayload where
  trades : List TradeActivity := []
  nextEnd : Option ℤ := none
  oldest : Option ℤ := none
  exhausted : Option Bool := none

/-- The while loop of the App.tsx range export (lines 6214-6312): cursor-mode
client pagination with seenIds deduplication, stall detection and a hard
safety cap of 2000 pages.  Cancellation and the UI progress state are
outside the model; the feed maps (cursor boundary, limit) to a payload. -/
def rangeExportLoop (feed : Option ℤ → ℕ → CursorPayload) (maxRows : ℕ) :
    ℕ → List TradeActivity → List String → Option ℤ → Bool → ℕ → List TradeActivity
  | 0, trades, _, _, _, _ => trades
  | fuel + 1, trades, seen, cursorEnd, exhausted, safety =>
    if !exhausted && trades.length < maxRows then
      let limit := min 500 (maxRows - trades.length)
      let payload := feed cursorEnd limit
      let batch := payload.trades
      let stepped := dedupBatch seen batch
      let fresh := stepped.2
      let newTrades := trades ++ fresh
      match payload.nextEnd with
      | none => newTrades
      | some nextEnd =>
        if cursorEnd = some nextEnd ∧ fresh.length = 0 then newTrades
        else
          let exhausted2 :=
            (match payload.exhausted with
             | some e => e || batch.length = 0
             | none => batch.length = 0 || batch.length < limit)
          if 2000 < safety + 1 then newTrades
          else rangeExportLoop feed maxRows fuel newTrades stepped.1 (some nextEnd)
            exhausted2 (safety + 1)
    else trades

/-- The App.tsx range export from its initial state (resumeKeys seeds the
seenIds set, the boundary starts at the requested effective end).  The
safety counter stops the loop within 2001 iterations, so the supplied fuel
is never exhausted first. -/
def handleRangeExport (feed : Option ℤ → ℕ → CursorPayload) (maxRows : ℕ)
    (resumeKeys : List String) (effectiveEndTs : Option ℤ) : List TradeActivity :=
  rangeExportLoop feed maxRows 2100 [] resumeKeys effectiveEndTs false 0

/-- The summary position map after a prefix of the sorted replay. -/
def summaryPositionsAfter (trades : List TradeActivity) (n : ℕ) :
    String → Option SummaryPositionState :=
  ((sortTrades trades).take n).foldl summaryFoldStep (fun _ => none)

/-- Worked oversell input: an open position of 10 units bought for 5 USDC. -/
def exOpenTen : HistPositionState :=
  { size := 10, costBasisUsd := 5, avgPrice := 1/2, realizedPnl := 0
    asset := "", market := "", slug := none, outcome := "" }

/-- The same open position in the summary accumulator shape. -/
def exOpenTenSummary : SummaryPositionState :=
  { key := "k", asset := "", market := "", slug := none, outcome := ""
    buySize := 10, buyCost := 5, sellSize := 0, sellProceeds := 0
    openSize := 10, costBasisUsd := 5, realizedPnl := 0
    lastPrice := none, lastTradeAt := none }

/-- A resolved sell of 20 units for 12 USDC (an oversell against exOpenTen). -/
def exSellTwenty : ResolvedTrade := ⟨Side.sell, 3/5, 20, 12⟩

/-- A raw sell event with no prior position. -/
def exBareSell : TradeActivity :=
  { side := some "sell", size := some 5, usdcSize := some 3, timestamp := some 1 }

/-- A buy event whose size is missing (resolves to 0) but whose notional is 5. -/
def exZeroSizeBuy : TradeActivity :=
  { usdcSize := some 5, timestamp := some 1 }

/-- A buy event of one unit for one USDC. -/
def exUnitBuy : TradeActivity :=
  { side := some "buy", size := some 1, price := some 1, usdcSize := some 1, timestamp := some 1 }

/-- A raw activity carrying an explicit negative amount on an in-range day. -/
def exNegDay : RawActivity :=
  { usdcSize := some (-5), timestamp := some 100000 }

/-- A raw activity of type REFUNDED (substring REFUND, no exact match). -/
def exRefunded : RawActivity :=
  { type := some "REFUNDED", usdcSize := some 10 }

/-- A positive cash-flow with an unparsable timestamp. -/
def exRedeemNoTs : RawActivity :=
  { type := some "REDEEM", usdcSize := some 5 }

/-- A fee with an unparsable timestamp, cancelling exRedeemNoTs. -/
def exFeeNoTs : RawActivity :=
  { type := some "FEE", usdcSize := some 5 }

/-- A REDEEM on a valid day. -/
def exRedeemDay : RawActivity :=
  { type := some "REDEEM", usdcSize := some 5, timestamp := some 100000 }

/-- Feed record "a", timestamp 50. -/
def exFeedA : RawActivity := { id := some "a", timestamp := some 50 }

/-- Feed record "b", timestamp 200. -/
def exFeedB : RawActivity := { id := some "b", timestamp := some 200 }

/-- A feed whose first page is [a, b] and whose next page repeats a: an
overlapping upstream feed. -/
def exOverlapFeed : ℕ → ℕ → List RawActivity :=
  fun offset _ =>
    if offset = 0 then [exFeedA, exFeedB]
    else if offset = 2 then [exFeedA]
    else []

/-- A feed with exactly three pages of sizes 500, 500 and 120 (spec
Scenario C). -/
def exThreePageFeed : ℕ → ℕ → List RawActivity :=
  fun offset _ =>
    if offset = 0 then List.replicate 500 exFeedA
    else if offset = 500 then List.replicate 500 exFeedA
    else if offset = 1000 then List.replicate 120 exFeedA
    else []

section Helpers

/-- insertSorted permutes the inserted cons. -/
theorem insertSorted_perm (le : α → α → Bool) (x : α) :
    ∀ l : List α, (insertSorted le x l).Perm (x :: l) := by
  intro l
  induction l with
  | nil => simp [insertSorted]
  | cons y ys ih =>
    by_cases h : le x y
    · simp [insertSorted, h]
    · simp only [insertSorted, h]
      exact (List.Perm.cons y ih).trans (List.Perm.swap x y ys)

/-- insertionSort permutes its input. -/
theorem insertionSort_perm (le : α → α → Bool) :
    ∀ l : List α, (insertionSort le l).Perm l := by
  intro l
  induction l with
  | nil => simp [insertionSort]
  | cons x xs ih =>
    exact (insertSorted_perm le x (insertionSort le xs)).trans (ih.cons x)

/-- The replay order of the position functions permutes the input. -/
theorem sortTrades_perm (trades : List TradeActivity) :
    (sortTrades trades).Perm trades := by
  have h := (insertionSort_perm tradeSortLe trades.enum).map (fun p => p.2)
  simpa [sortTrades, List.enum_map_snd] using h

/-- The replay order of the aggregator permutes the input. -/
theorem lifetimeSorted_perm (activities : List RawActivity) :
    (lifetimeSorted activities).Perm activities := by
  have h := (insertionSort_perm activitySortLe activities.enum).map (fun p => p.2)
  simpa [lifetimeSorted, List.enum_map_snd] using h

/-- Left fold of pointwise addition against a running total. -/
theorem foldl_add_eq_sum (f : α → ℚ) :
    ∀ (l : List α) (c : ℚ), l.foldl (fun s a => s + f a) c = c + (l.map f).sum := by
  intro l
  induction l with
  | nil => intro c; simp
  | cons x xs ih => intro c; simp [ih, add_assoc]

/-- A guarded map-sum equals the sum over the filtered list. -/
theorem sum_map_ite (p : α → Prop) [DecidablePred p] (f : α → ℚ) :
    ∀ l : List α,
      (l.map (fun a => if p a then f a else 0)).sum = ((l.filter (fun a => decide (p a))).map f).sum := by
  intro l
  induction l with
  | nil => simp
  | cons x xs ih =>
    by_cases h : p x <;> simp [h, ih]

/-- Evaluation: the side tag "buy" normalizes to a buy. -/
theorem normalizeSide_some_buy : normalizeSide (some "buy") = Side.buy := by decide

/-- Evaluation: the side tag "sell" normalizes to a sell. -/
theorem normalizeSide_some_sell : normalizeSide (some "sell") = Side.sell := by decide

/-- Evaluation: a missing side normalizes to a buy. -/
theorem normalizeSide_none : normalizeSide none = Side.buy := rfl

/-- The two sides are distinct constructors. -/
theorem side_buy_ne_sell : Side.buy ≠ Side.sell := by decide

/-- The two sides are distinct constructors (symmetric form). -/
theorem side_sell_ne_buy : Side.sell ≠ Side.buy := by decide

/-- Evaluation: the default position key of a bare record. -/
theorem unknown_key_append :
    "unknown-market" ++ ":" ++ "unknown-outcome" = "unknown-market:unknown-outcome" := by decide

end Helpers

/-- C1 counterexample: buy 10 units for 5 USDC, then sell 20 units for 12
USDC.  The code realizes 12 - (5/10)*20 = 2 for the sell, while the claimed
formula notional - avgCost * min(tradeSize, openSize) gives
12 - (5/10)*min(20,10) = 7. -/
theorem oversell_realized_counterexample :
    ((computePositionHistory
        [{ side := some "buy", size := some 10, usdcSize := some 5, timestamp := some 1 },
         { side := some "sell", size := some 20, usdcSize := some 12, timestamp := some 2 }]).map
        (fun e => e.realizedPnl)) = [0, 2]
    ∧ (12 : ℚ) - 5 / 10 * min 20 10 = 7
    ∧ (2 : ℚ) ≠ 7 := by
  refine ⟨?_, by norm_num, by norm_num⟩
  norm_num [computePositionHistory, sortTrades, insertionSort, insertSorted, tradeSortLe,
    List.enum, List.enumFrom, histFoldStep, applyTradeToPosition, resolveTrade, getPositionKey,
    initHistState, parseNumber, normalizeTimestampMs, strOr, strTruthy,
    normalizeSide_some_buy, normalizeSide_some_sell, side_buy_ne_sell, side_sell_ne_buy]

/-- C1 (amended): for a sell with positive resolved size against a strictly
positive open size, both replay functions realize the full trade size:
realizedDelta = notional - avgCost * tradeSize, with no min against the open
size; the claimed min-formula only agrees when tradeSize ≤ openSize. -/
theorem sell_realized_full_size (existing : HistPositionState) (s : SummaryPositionState)
    (r : ResolvedTrade) (ts : ℚ) (hside : r.side = Side.sell) (hsz : 0 < r.tradeSize) :
    (0 < existing.size →
      (applyTradeToPosition existing r).2
        = r.tradeUsdc - existing.costBasisUsd / existing.size * r.tradeSize)
    ∧ (0 < s.openSize →
      (summaryApplyTrade s r ts).realizedPnl
        = s.realizedPnl + (r.tradeUsdc - s.costBasisUsd / s.openSize * r.tradeSize))
    ∧ (0 < existing.size → r.tradeSize ≤ existing.size →
      (applyTradeToPosition existing r).2
        = r.tradeUsdc - existing.costBasisUsd / existing.size * min r.tradeSize existing.size) := by
  refine ⟨fun hopen => ?_, fun hopen => ?_, fun hopen hle => ?_⟩
  · simp [applyTradeToPosition, hside, hsz, hopen]
  · have hnotbuy : ¬ r.side = Side.buy := by simp [hside]
    simp only [summaryApplyTrade, hnotbuy, if_neg]
    split_ifs with h1 h2 h3 h3 <;> simp_all
  · rw [min_eq_left hle]
    simp [applyTradeToPosition, hside, hsz, hopen]

/-- C1 witness: the oversell of exSellTwenty against exOpenTen realizes
against the full 20-unit trade size. -/
theorem sell_realized_full_size_witness :
    (applyTradeToPosition exOpenTen exSellTwenty).2
      = exSellTwenty.tradeUsdc - exOpenTen.costBasisUsd / exOpenTen.size * exSellTwenty.tradeSize :=
  (sell_realized_full_size exOpenTen exOpenTenSummary exSellTwenty 0 (by decide)
    (by decide)).1 (by decide)

/-- C3 counterexample: a lone sell of 5 units for 3 USDC leaves the position
at size 0 and cost basis 0 with no realized delta; the claim says it should
be treated like a buy, increasing openSize to 5 and costBasisUsd to 3. -/
theorem sell_no_open_counterexample :
    ((computePositionHistory [exBareSell]).map
        (fun e => (e.positionSize, e.positionCostBasis, e.realizedPnl))) = [(0, 0, 0)]
    ∧ (0 : ℚ) ≠ 5 ∧ (0 : ℚ) ≠ 3 := by
  refine ⟨?_, by norm_num, by norm_num⟩
  norm_num [computePositionHistory, sortTrades, insertionSort, insertSorted, tradeSortLe,
    List.enum, List.enumFrom, histFoldStep, applyTradeToPosition, resolveTrade, getPositionKey,
    initHistState, parseNumber, normalizeTimestampMs, strOr, strTruthy, exBareSell,
    normalizeSide_some_buy, normalizeSide_some_sell, side_buy_ne_sell, side_sell_ne_buy]

/-- C3 (amended): a sell on an instrument with no open size is a no-op for
the position state: no realized delta is recorded and openSize and
costBasisUsd stay unchanged (the summary copy still accrues sellSize and
sellProceeds). -/
theorem sell_without_open_size_noop (existing : HistPositionState) (s : SummaryPositionState)
    (r : ResolvedTrade) (ts : ℚ) (hside : r.side = Side.sell)
    (hsize : existing.size = 0) (hcb : existing.costBasisUsd = 0) (havg : existing.avgPrice = 0)
    (hopen : s.openSize = 0) :
    applyTradeToPosition existing r = (existing, 0)
    ∧ (summaryApplyTrade s r ts).openSize = s.openSize
    ∧ (summaryApplyTrade s r ts).costBasisUsd = s.costBasisUsd
    ∧ (summaryApplyTrade s r ts).realizedPnl = s.realizedPnl := by
  have hnotbuy : ¬ r.side = Side.buy := by simp [hside]
  refine ⟨?_, ?_, ?_, ?_⟩
  · obtain ⟨sz, cb, ap, rp, a, m, sl, o⟩ := existing
    simp only [HistPositionState.mk.injEq] at hsize hcb havg ⊢
    subst hsize hcb havg
    simp [applyTradeToPosition, hside]
  all_goals
    simp only [summaryApplyTrade, hnotbuy, if_neg]
    split_ifs with h1 h2 h3 h3 <;> simp_all

/-- C3 witness: selling exSellTwenty against an empty position is a no-op. -/
theorem sell_without_open_size_noop_witness :
    applyTradeToPosition (initHistState exBareSell) exSellTwenty = (initHistState exBareSell, 0)
    ∧ (summaryApplyTrade (initSummaryState exBareSell) exSellTwenty 0).openSize
        = (initSummaryState exBareSell).openSize :=
  have h := sell_without_open_size_noop (initHistState exBareSell) (initSummaryState exBareSell)
    exSellTwenty 0 (by decide) (by decide) (by decide) (by decide) (by decide)
  ⟨h.1, h.2.1⟩

/-- The clamp of computePositionHistory enforces the position invariants at
every single step, for arbitrary inputs. -/
theorem applyTrade_invariant (existing : HistPositionState) (r : ResolvedTrade) :
    0 ≤ (applyTradeToPosition existing r).1.size
    ∧ ((applyTradeToPosition existing r).1.size = 0 →
        (applyTradeToPosition existing r).1.costBasisUsd = 0) := by
  simp only [applyTradeToPosition]
  split_ifs with h1 h2 h3 h4 <;>
    simp_all <;>
    constructor <;>
    first
      | linarith
      | (intro h0; linarith)

/-- The history fold preserves the position invariants on both the map and
the emitted entries. -/
theorem histFold_invariant :
    ∀ (l : List TradeActivity)
      (acc : (String → Option HistPositionState) × List PositionHistoryEntry),
      (∀ key st, acc.1 key = some st → 0 ≤ st.size ∧ (st.size = 0 → st.costBasisUsd = 0)) →
      (∀ e ∈ acc.2, 0 ≤ e.positionSize ∧ (e.positionSize = 0 → e.positionCostBasis = 0)) →
      (∀ key st, (l.foldl histFoldStep acc).1 key = some st →
          0 ≤ st.size ∧ (st.size = 0 → st.costBasisUsd = 0))
      ∧ (∀ e ∈ (l.foldl histFoldStep acc).2,
          0 ≤ e.positionSize ∧ (e.positionSize = 0 → e.positionCostBasis = 0)) := by
  intro l
  induction l with
  | nil => intro acc hmap hent; exact ⟨hmap, hent⟩
  | cons t ts ih =>
    intro acc hmap hent
    simp only [List.foldl_cons]
    apply ih
    · intro key st hkey
      simp only [histFoldStep] at hkey
      by_cases hk : key = getPositionKey t
      · simp only [hk, if_pos rfl] at hkey
        have := applyTrade_invariant
          ((acc.1 (getPositionKey t)).getD (initHistState t)) (resolveTrade t)
        cases hkey
        exact this
      · simp only [if_neg hk] at hkey
        exact hmap key st hkey
    · intro e he
      simp only [histFoldStep, List.mem_append, List.mem_singleton] at he
      rcases he with he | he
      · exact hent e he
      · subst he
        exact applyTrade_invariant
          ((acc.1 (getPositionKey t)).getD (initHistState t)) (resolveTrade t)

/-- The summary step preserves the invariants whenever the resolved trade
size is positive. -/
theorem summaryApply_invariant (s : SummaryPositionState) (r : ResolvedTrade) (ts : ℚ)
    (hsz : 0 < r.tradeSize)
    (hopen : 0 ≤ s.openSize) (hcb : s.openSize = 0 → s.costBasisUsd = 0) :
    0 ≤ (summaryApplyTrade s r ts).openSize
    ∧ ((summaryApplyTrade s r ts).openSize = 0 →
        (summaryApplyTrade s r ts).costBasisUsd = 0) := by
  simp only [summaryApplyTrade]
  split_ifs with h1 h2 h3 h4 h5 <;>
    simp_all <;>
    constructor <;>
    first
      | linarith
      | (intro h0; linarith)

/-- The summary fold preserves the invariants for event lists whose resolved
trade sizes are all positive. -/
theorem summaryFold_invariant :
    ∀ (l : List TradeActivity), (∀ t ∈ l, 0 < (resolveTrade t).tradeSize) →
      ∀ (P : String → Option SummaryPositionState),
      (∀ key st, P key = some st → 0 ≤ st.openSize ∧ (st.openSize = 0 → st.costBasisUsd = 0)) →
      ∀ key st, (l.foldl summaryFoldStep P) key = some st →
        0 ≤ st.openSize ∧ (st.openSize = 0 → st.costBasisUsd = 0) := by
  intro l
  induction l with
  | nil => intro _ P hP key st h; exact hP key st h
  | cons t ts ih =>
    intro hl P hP key st h
    simp only [List.foldl_cons] at h
    refine ih (fun u hu => hl u (List.mem_cons_of_mem t hu)) _ ?_ key st h
    intro key2 st2 hkey2
    simp only [summaryFoldStep] at hkey2
    by_cases hk : key2 = getPositionKey t
    · simp only [hk, if_pos rfl] at hkey2
      cases hkey2
      have hbase : 0 ≤ ((P (getPositionKey t)).getD (initSummaryState t)).openSize
          ∧ (((P (getPositionKey t)).getD (initSummaryState t)).openSize = 0 →
              ((P (getPositionKey t)).getD (initSummaryState t)).costBasisUsd = 0) := by
        cases hcase : P (getPositionKey t) with
        | none => simp [initSummaryState]
        | some st0 => simpa [hcase] using hP (getPositionKey t) st0 hcase
      exact summaryApply_invariant _ _ _ (hl t (List.mem_cons_self t ts)) hbase.1 hbase.2
    · simp only [if_neg hk] at hkey2
      exact hP key2 st2 hkey2

/-- C2 counterexample: a buy whose size resolves to 0 but whose notional is 5
leaves computePositionSummary with openSize = 0 and costBasisUsd = 5,
violating the invariant openSize == 0 ⇒ costBasisUsd == 0 (the summary copy
only clamps in its sell branch). -/
theorem summary_zero_size_buy_counterexample :
    ((summaryPositions [exZeroSizeBuy] "unknown-market:unknown-outcome").map
        (fun st => (st.openSize, st.costBasisUsd))) = some (0, 5)
    ∧ (5 : ℚ) ≠ 0 := by
  refine ⟨?_, by norm_num⟩
  norm_num [summaryPositions, sortTrades, insertionSort, insertSorted, List.enum,
    List.enumFrom, summaryFoldStep, summaryApplyTrade, resolveTrade, getPositionKey,
    initSummaryState, parseNumber, strOr, strTruthy, exZeroSizeBuy, normalizeSide_none,
    side_buy_ne_sell, side_sell_ne_buy, unknown_key_append]

/-- C2 (amended): after every processed event computePositionHistory satisfies
openSize ≥ 0 and openSize == 0 ⇒ costBasisUsd == 0, for all event sequences
(the clamp runs on every path); computePositionSummary satisfies both
invariants for sequences in which every event's resolved trade size is
positive, but not in general (see the zero-size-buy counterexample). -/
theorem position_invariants :
    (∀ trades n key st, histPositionsAfter trades n key = some st →
        0 ≤ st.size ∧ (st.size = 0 → st.costBasisUsd = 0))
    ∧ (∀ trades, ∀ e ∈ computePositionHistory trades,
        0 ≤ e.positionSize ∧ (e.positionSize = 0 → e.positionCostBasis = 0))
    ∧ (∀ trades, (∀ t ∈ trades, 0 < (resolveTrade t).tradeSize) →
        ∀ n key st, summaryPositionsAfter trades n key = some st →
        0 ≤ st.openSize ∧ (st.openSize = 0 → st.costBasisUsd = 0)) := by
  refine ⟨?_, ?_, ?_⟩
  · intro trades n key st h
    exact (histFold_invariant ((sortTrades trades).take n) (fun _ => none, [])
      (by intro _ _ h0; cases h0) (by intro _ h0; cases h0)).1 key st h
  · intro trades e he
    exact (histFold_invariant (sortTrades trades) (fun _ => none, [])
      (by intro _ _ h0; cases h0) (by intro _ h0; cases h0)).2 e he
  · intro trades htr n key st h
    refine summaryFold_invariant ((sortTrades trades).take n) ?_ _
      (by intro _ _ h0; cases h0) key st h
    intro t ht
    exact htr t ((sortTrades_perm trades).mem_iff.mp (List.mem_of_mem_take ht))

/-- C2 witness: a single one-unit buy satisfies the invariants after its
event. -/
theorem position_invariants_witness :
    0 ≤ ((summaryPositionsAfter [exUnitBuy] 1 (getPositionKey exUnitBuy)).getD
        (initSummaryState exUnitBuy)).openSize :=
  (position_invariants.2.2 [exUnitBuy] (by decide) 1 (getPositionKey exUnitBuy)
    (((summaryPositionsAfter [exUnitBuy] 1 (getPositionKey exUnitBuy)).getD
        (initSummaryState exUnitBuy))) rfl).1

/-- The maxDrawdown accumulator never becomes negative. -/
theorem drawdownGo_nonneg :
    ∀ (daily : List DailyBucket) (c p m : ℚ), 0 ≤ m →
      0 ≤ (daily.foldl drawdownStep (c, p, m)).2.2 := by
  intro daily
  induction daily with
  | nil => intro c p m hm; simpa using hm
  | cons d ds ih =>
    intro c p m hm
    simp only [List.foldl_cons]
    have hstep : 0 ≤ (drawdownStep (c, p, m) d).2.2 := by
      simp only [drawdownStep]
      split_ifs <;> simp_all <;> linarith
    have hshape : drawdownStep (c, p, m) d
        = ((drawdownStep (c, p, m) d).1, (drawdownStep (c, p, m) d).2.1,
           (drawdownStep (c, p, m) d).2.2) := rfl
    rw [hshape]
    exact ih _ _ _ hstep

/-- With only nonnegative daily nets the scan keeps peak = cumulative and a
zero maxDrawdown. -/
theorem drawdownGo_zero :
    ∀ (daily : List DailyBucket) (c : ℚ), (∀ d ∈ daily, 0 ≤ d.net) →
      (daily.foldl drawdownStep (c, c, 0)).2.2 = 0 := by
  intro daily
  induction daily with
  | nil => intro c _; rfl
  | cons d ds ih =>
    intro c h
    have hd : 0 ≤ d.net := h d (List.mem_cons_self d ds)
    have hpeak : (if c + d.net > c then c + d.net else c) = c + d.net := by
      split_ifs with h1
      · rfl
      · have : c + d.net = c := le_antisymm (by linarith) (by linarith)
        rw [this]
    have hstep : drawdownStep (c, c, 0) d = (c + d.net, c + d.net, 0) := by
      simp only [drawdownStep, hpeak]
      norm_num
    simp only [List.foldl_cons, hstep]
    exact ih (c + d.net) (fun u hu => h u (List.mem_cons_of_mem d hu))

/-- C4 counterexample: one explicit -5 cash-flow produces a single daily
bucket with net -5; its one-element cumulative sequence is trivially
non-decreasing, yet the code reports maxDrawdown = 5 (the peak starts at the
zero baseline, not at the first cumulative value).  With no activity at all
maxDrawdown is null, not 0. -/
theorem maxDrawdown_counterexample :
    ((computeLifetimeAnalytics [exNegDay]).daily.map (fun d => d.net)) = [-5]
    ∧ (computeLifetimeAnalytics [exNegDay]).maxDrawdown = some 5
    ∧ (5 : ℚ) ≠ 0
    ∧ (computeLifetimeAnalytics ([] : List RawActivity)).maxDrawdown = none
    ∧ (none : Option ℚ) ≠ some 0 := by
  refine ⟨?_, ?_, by norm_num, rfl, by simp⟩
  · norm_num [computeLifetimeAnalytics, lifetimeDaily, lifetimeFold, lifetimeSorted,
      insertionSort, insertSorted, List.enum, List.enumFrom, lifetimeFoldStep,
      getActivityNetDelta, getActivityAmount, normalizeActivityType, parseNumber,
      bucketAdd, activityDateKey, normalizeTimestampMs, exNegDay]
  · norm_num [computeLifetimeAnalytics, lifetimeMaxDrawdown, lifetimeDaily, lifetimeFold,
      lifetimeSorted, insertionSort, insertSorted, List.enum, List.enumFrom,
      lifetimeFoldStep, getActivityNetDelta, getActivityAmount, normalizeActivityType,
      parseNumber, bucketAdd, activityDateKey, normalizeTimestampMs, drawdownScan,
      drawdownStep, exNegDay]

/-- C4 (amended): the lifetime maxDrawdown is null exactly when there are no
active days; otherwise it is the maximum over steps of (running peak -
cumulative) with the peak starting at the 0 baseline; it is never negative,
and it is 0 whenever every daily net is nonnegative (equivalently, the
0-based cumulative sequence is non-decreasing). -/
theorem maxDrawdown_amended :
    (∀ acts, (computeLifetimeAnalytics acts).maxDrawdown = lifetimeMaxDrawdown (lifetimeDaily acts))
    ∧ (∀ daily : List DailyBucket, lifetimeMaxDrawdown daily = none ↔ daily = [])
    ∧ (∀ (daily : List DailyBucket) (dd : ℚ), lifetimeMaxDrawdown daily = some dd → 0 ≤ dd)
    ∧ (∀ daily : List DailyBucket, (∀ d ∈ daily, 0 ≤ d.net) →
        ∀ dd : ℚ, lifetimeMaxDrawdown daily = some dd → dd = 0) := by
  refine ⟨fun acts => rfl, ?_, ?_, ?_⟩
  · intro daily
    unfold lifetimeMaxDrawdown
    split_ifs with h
    · simp only [reduceCtorEq, false_iff]
      intro hnil
      rw [hnil] at h
      exact absurd h (by simp)
    · simp only [true_iff]
      exact List.length_eq_zero.mp (Nat.le_zero.mp (Nat.not_lt.mp h))
  · intro daily dd h
    unfold lifetimeMaxDrawdown at h
    split_ifs at h with hlen
    cases h
    exact drawdownGo_nonneg daily 0 0 0 le_rfl
  · intro daily hpos dd h
    unfold lifetimeMaxDrawdown at h
    split_ifs at h with hlen
    cases h
    exact drawdownGo_zero daily 0 hpos

/-- C4 witness: a single profitable day has a well-defined, nonnegative and
zero maxDrawdown. -/
theorem maxDrawdown_amended_witness :
    0 ≤ (lifetimeMaxDrawdown [⟨0, 1, 1, 0, 1⟩]).getD 0
    ∧ (lifetimeMaxDrawdown [⟨0, 1, 1, 0, 1⟩]).getD 0 = 0 :=
  ⟨(maxDrawdown_amended.2.2.1 [⟨0, 1, 1, 0, 1⟩] ((lifetimeMaxDrawdown [⟨0, 1, 1, 0, 1⟩]).getD 0)
      rfl),
   (maxDrawdown_amended.2.2.2 [⟨0, 1, 1, 0, 1⟩] (by norm_num)
      ((lifetimeMaxDrawdown [⟨0, 1, 1, 0, 1⟩]).getD 0) rfl)⟩

/-- A running sum of squares stays nonnegative. -/
theorem foldl_sq_nonneg :
    ∀ (l : List ℚ) (m c : ℚ), 0 ≤ c → 0 ≤ l.foldl (fun sum x => sum + (x - m) ^ 2) c := by
  intro l
  induction l with
  | nil => intro m c hc; simpa using hc
  | cons x xs ih =>
    intro m c hc
    simp only [List.foldl_cons]
    exact ih m _ (add_nonneg hc (sq_nonneg _))

/-- The sample variance of at least two observations is nonnegative. -/
theorem sampleVariance_nonneg (nets : List ℚ) (h : 2 ≤ nets.length) :
    0 ≤ sampleVariance nets := by
  unfold sampleVariance
  apply div_nonneg (foldl_sq_nonneg nets (sampleMean nets) 0 le_rfl)
  have : (2 : ℚ) ≤ (nets.length : ℚ) := by exact_mod_cast h
  linarith

/-- C7: the lifetime sharpeRatio is null iff activeDays < 2 or the sample
variance (denominator n-1) of the daily nets is zero; otherwise it is
(mean / stdev) * sqrt 365.  In particular a length-1 sequence and the
zero-variance sequence [5, 5] both give null. -/
theorem sharpeRatio_characterization :
    (∀ acts, (computeLifetimeAnalytics acts).sharpeRatio
        = sharpeRatio ((lifetimeDaily acts).map (fun day => day.net)))
    ∧ (∀ nets : List ℚ, sharpeRatio nets
        = if 2 ≤ nets.length ∧ sampleVariance nets ≠ 0 then
            some ((((sampleMean nets : ℚ) : ℝ) / Real.sqrt ((sampleVariance nets : ℚ) : ℝ))
              * Real.sqrt 365)
          else none)
    ∧ (∀ x : ℚ, sharpeRatio [x] = none)
    ∧ sharpeRatio [5, 5] = none := by
  have main : ∀ nets : List ℚ, sharpeRatio nets
      = if 2 ≤ nets.length ∧ sampleVariance nets ≠ 0 then
          some ((((sampleMean nets : ℚ) : ℝ) / Real.sqrt ((sampleVariance nets : ℚ) : ℝ))
            * Real.sqrt 365)
        else none := by
    intro nets
    by_cases h2 : 2 ≤ nets.length
    · by_cases hveq : sampleVariance nets = 0
      · have : Real.sqrt ((sampleVariance nets : ℚ) : ℝ) = 0 := by
          rw [hveq]; simp
        simp [sharpeRatio, h2, hveq, this]
      · have hvpos : 0 < sampleVariance nets :=
          lt_of_le_of_ne (sampleVariance_nonneg nets h2) (Ne.symm hveq)
        have hs : 0 < Real.sqrt ((sampleVariance nets : ℚ) : ℝ) :=
          Real.sqrt_pos.mpr (by exact_mod_cast hvpos)
        simp [sharpeRatio, h2, hveq, hs]
    · simp [sharpeRatio, h2]
  refine ⟨fun acts => rfl, main, ?_, ?_⟩
  · intro x
    rw [main [x]]
    norm_num
  · rw [main [5, 5]]
    have hv : sampleVariance [5, 5] = 0 := by
      norm_num [sampleVariance, sampleMean, List.foldl]
    simp [hv]

/-- Sums of lists of nonnegative rationals are nonnegative. -/
theorem list_sum_nonneg :
    ∀ l : List ℚ, (∀ x ∈ l, 0 ≤ x) → 0 ≤ l.sum := by
  intro l
  induction l with
  | nil => intro _; simp
  | cons x xs ih =>
    intro h
    simp only [List.sum_cons]
    exact add_nonneg (h x (List.mem_cons_self x xs))
      (ih fun u hu => h u (List.mem_cons_of_mem x hu))

/-- A sum of strictly positive rationals is positive iff the list is
nonempty. -/
theorem list_sum_pos_iff :
    ∀ l : List ℚ, (∀ x ∈ l, 0 < x) → (0 < l.sum ↔ l ≠ []) := by
  intro l
  induction l with
  | nil => intro _; simp
  | cons x xs ih =>
    intro h
    simp only [List.sum_cons, ne_eq, reduceCtorEq, not_false_eq_true, iff_true]
    have hx := h x (List.mem_cons_self x xs)
    have hxs := list_sum_nonneg xs (fun u hu => le_of_lt (h u (List.mem_cons_of_mem x hu)))
    linarith

/-- The loss-day denominator as a filtered sum. -/
theorem lifetimeTotalNegative_eq_sum (daily : List DailyBucket) :
    lifetimeTotalNegative daily
      = ((daily.filter (fun d => decide (d.net < 0))).map (fun d => -d.net)).sum := by
  have aux : ∀ (l : List DailyBucket) (c : ℚ),
      l.foldl (fun sum day => sum + if day.net < 0 then -day.net else 0) c
        = c + ((l.filter (fun d => decide (d.net < 0))).map (fun d => -d.net)).sum := by
    intro l
    induction l with
    | nil => intro c; simp
    | cons d ds ih =>
      intro c
      by_cases h : d.net < 0 <;> simp [h, ih, add_assoc]
  rw [lifetimeTotalNegative, aux, zero_add]

/-- C8: the lifetime profitFactor is null iff there are no loss-days, and
otherwise equals the sum of net over profit days divided by the sum of
absolute net over loss days. -/
theorem profitFactor_characterization :
    (∀ acts, (computeLifetimeAnalytics acts).profitFactor = lifetimeProfitFactor (lifetimeDaily acts))
    ∧ (∀ daily : List DailyBucket, lifetimeTotalPositive daily
        = ((daily.filter (fun d => decide (0 < d.net))).map (fun d => d.net)).sum)
    ∧ (∀ daily : List DailyBucket, lifetimeTotalNegative daily
        = ((daily.filter (fun d => decide (d.net < 0))).map (fun d => |d.net|)).sum)
    ∧ (∀ daily : List DailyBucket,
        (lifetimeProfitFactor daily = none ↔ (daily.filter (fun d => decide (d.net < 0))).length = 0))
    ∧ (∀ daily : List DailyBucket, (daily.filter (fun d => decide (d.net < 0))).length ≠ 0 →
        lifetimeProfitFactor daily
          = some (lifetimeTotalPositive daily / lifetimeTotalNegative daily)) := by
  have habs : ∀ daily : List DailyBucket,
      ((daily.filter (fun d => decide (d.net < 0))).map (fun d => |d.net|)).sum
        = ((daily.filter (fun d => decide (d.net < 0))).map (fun d => -d.net)).sum := by
    intro daily
    congr 1
    apply List.map_congr_left
    intro d hd
    exact abs_of_neg (by simpa using (List.mem_filter.mp hd).2)
  have hpos_iff : ∀ daily : List DailyBucket,
      (0 < lifetimeTotalNegative daily ↔ (daily.filter (fun d => decide (d.net < 0))).length ≠ 0) := by
    intro daily
    rw [lifetimeTotalNegative_eq_sum]
    rw [list_sum_pos_iff _ (by
      intro x hx
      simp only [List.mem_map] at hx
      obtain ⟨d, hd, hdx⟩ := hx
      have := (List.mem_filter.mp hd).2
      simp only [decide_eq_true_eq] at this
      rw [← hdx]
      linarith)]
    constructor
    · intro h hlen
      exact h (by simpa [List.map_eq_nil_iff] using List.length_eq_zero.mp hlen)
    · intro h hmap
      exact h (by simp [List.length_eq_zero, List.map_eq_nil_iff.mp hmap])
  refine ⟨fun acts => rfl, ?_, ?_, ?_, ?_⟩
  · intro daily
    have aux : ∀ (l : List DailyBucket) (c : ℚ),
        l.foldl (fun sum day => sum + if day.net > 0 then day.net else 0) c
          = c + ((l.filter (fun d => decide (0 < d.net))).map (fun d => d.net)).sum := by
      intro l
      induction l with
      | nil => intro c; simp
      | cons d ds ih =>
        intro c
        by_cases h : d.net > 0 <;> simp [h, ih, add_assoc]
    rw [lifetimeTotalPositive, aux, zero_add]
  · intro daily
    rw [lifetimeTotalNegative_eq_sum, habs]
  · intro daily
    unfold lifetimeProfitFactor
    split_ifs with h
    · simp only [reduceCtorEq, false_iff]
      intro hlen
      exact ((hpos_iff daily).mp h) hlen
    · simp only [true_iff]
      by_contra hlen
      have := (hpos_iff daily).mpr hlen
      exact h this
  · intro daily hlen
    unfold lifetimeProfitFactor
    rw [if_pos ((hpos_iff daily).mpr hlen)]

/-- C8 witness: one loss day with net -1 has a defined profit factor. -/
theorem profitFactor_characterization_witness :
    lifetimeProfitFactor [⟨0, -1, 0, 1, 1⟩]
      = some (lifetimeTotalPositive [⟨0, -1, 0, 1, 1⟩] / lifetimeTotalNegative [⟨0, -1, 0, 1, 1⟩]) :=
  profitFactor_characterization.2.2.2.2 [⟨0, -1, 0, 1, 1⟩] (by decide)

/-- The ignore predicate as an explicit pattern-list test. -/
theorem isIgnored_eq (t : String) :
    isIgnoredActivityType t
      = (ACTIVITY_IGNORE_TYPES.contains t
          || ["TRANSFER", "WITHDRAW", "DEPOSIT", "BRIDGE"].any (fun p => strContains t p)) := by
  simp [isIgnoredActivityType, List.any_cons, List.any_nil, Bool.or_assoc]

/-- The positive predicate as an explicit pattern-list test. -/
theorem isPositive_eq (t : String) :
    isPositiveActivityType t
      = (ACTIVITY_POSITIVE_TYPES.contains t
          || ["REDEEM", "REBATE", "REWARD", "PAYOUT", "CLAIM", "SETTLE",
              "CREDIT"].any (fun p => strContains t p)) := by
  simp [isPositiveActivityType, List.any_cons, List.any_nil, Bool.or_assoc]

/-- The negative predicate as an explicit pattern-list test. -/
theorem isNegative_eq (t : String) :
    isNegativeActivityType t
      = (ACTIVITY_NEGATIVE_TYPES.contains t
          || ["FEE", "PENALTY", "DEBIT"].any (fun p => strContains t p)) := by
  simp [isNegativeActivityType, List.any_cons, List.any_nil, Bool.or_assoc]

/-- C9 counterexample: a REFUNDED event with positive amount 10 and no side.
Its type matches REFUND as a substring, so the claim classifies it positive
(+10), but the code only exact-matches REFUND and its substring list omits
it, so getActivityNetDelta yields 0. -/
theorem refund_substring_counterexample :
    getActivityNetDelta exRefunded = 0
    ∧ (0 : ℚ) ≠ 10
    ∧ strContains (normalizeActivityType exRefunded.type) "REFUND" = true
    ∧ exRefunded.side = none
    ∧ getActivityAmount exRefunded = 10 := by decide

/-- C9 (amended): getActivityNetDelta implements exactly the classification
of claimNetDelta - explicit negative amounts as-is, zero amounts ignored,
side-signed notional for TRADE and sided events, then ignore-before-sign
with the code's actual exact and substring pattern lists (REFUND positive
only as an exact match, SETTLE as the positive substring, BRIDGE ignored by
substring). -/
theorem activity_delta_classification :
    ∀ activity : RawActivity, getActivityNetDelta activity = claimNetDelta activity := by
  intro activity
  unfold getActivityNetDelta claimNetDelta
  simp only [isIgnored_eq, isPositive_eq, isNegative_eq]

/-- Adding a delta into the bucket map raises the total bucket net by that
delta. -/
theorem bucketAdd_net_sum :
    ∀ (l : List DailyBucket) (date : ℤ) (delta : ℚ),
      ((bucketAdd l date delta).map (fun d => d.net)).sum
        = (l.map (fun d => d.net)).sum + delta := by
  intro l
  induction l with
  | nil => intro date delta; simp [bucketAdd]
  | cons b rest ih =>
    intro date delta
    by_cases h : b.date = date
    · simp only [bucketAdd, if_pos h, List.map_cons, List.sum_cons]
      ring
    · simp only [bucketAdd, if_neg h, List.map_cons, List.sum_cons, ih]
      ring

/-- The running netPnl accumulates every delta, bucketed or not. -/
theorem lifetimeFold_netPnl :
    ∀ (l : List RawActivity) (acc : LifetimeTotals),
      (l.foldl lifetimeFoldStep acc).netPnl
        = acc.netPnl + (l.map getActivityNetDelta).sum := by
  intro l
  induction l with
  | nil => intro acc; simp
  | cons a as ih =>
    intro acc
    simp only [List.foldl_cons, List.map_cons, List.sum_cons, ih]
    by_cases hd : getActivityNetDelta a = 0
    · simp [lifetimeFoldStep, hd]
    · by_cases ht : 0 < parseNumber a.timestamp
      · simp only [lifetimeFoldStep, if_neg hd, if_pos ht]
        ring_nf
      · simp only [lifetimeFoldStep, if_neg hd, if_neg ht]
        ring_nf

/-- The total bucket net accumulates exactly the deltas of bucketed events
(non-zero delta and positive timestamp). -/
theorem lifetimeFold_bucketSum :
    ∀ (l : List RawActivity) (acc : LifetimeTotals),
      ((l.foldl lifetimeFoldStep acc).buckets.map (fun d => d.net)).sum
        = (acc.buckets.map (fun d => d.net)).sum
          + ((l.filter
              (fun a => decide (getActivityNetDelta a ≠ 0 ∧ 0 < parseNumber a.timestamp))).map
              getActivityNetDelta).sum := by
  intro l
  induction l with
  | nil => intro acc; simp
  | cons a as ih =>
    intro acc
    simp only [List.foldl_cons, List.filter_cons]
    by_cases hd : getActivityNetDelta a = 0
    · rw [ih]
      simp [lifetimeFoldStep, hd]
    · by_cases ht : 0 < parseNumber a.timestamp
      · rw [ih]
        simp only [lifetimeFoldStep, if_neg hd, if_pos ht]
        simp [hd, ht, bucketAdd_net_sum]
        ring
      · rw [ih]
        simp [lifetimeFoldStep, hd, ht]

/-- Every delta is counted once: either as a bucketed or as an unbucketed
contribution. -/
theorem delta_sum_split :
    ∀ l : List RawActivity,
      (l.map getActivityNetDelta).sum
        = ((l.filter
            (fun a => decide (getActivityNetDelta a ≠ 0 ∧ 0 < parseNumber a.timestamp))).map
            getActivityNetDelta).sum
          + ((l.filter
            (fun a => decide (getActivityNetDelta a ≠ 0 ∧ ¬ 0 < parseNumber a.timestamp))).map
            getActivityNetDelta).sum := by
  intro l
  induction l with
  | nil => simp
  | cons a as ih =>
    simp only [List.map_cons, List.sum_cons, List.filter_cons, ih]
    by_cases hd : getActivityNetDelta a = 0
    · simp [hd]
    · by_cases ht : 0 < parseNumber a.timestamp
      · simp [hd, ht]
        ring
      · simp [hd, ht]
        ring

/-- C10 counterexample: a +5 REDEEM and a -5 FEE, both with unparsable
timestamps, land in no daily bucket, yet netPnl (0) still equals the sum of
the (empty) bucket nets - so the claimed "only when every contributing event
has a positive timestamp" direction is false. -/
theorem unbucketed_netPnl_counterexample :
    (lifetimeFold [exRedeemNoTs, exFeeNoTs]).netPnl = 0
    ∧ (lifetimeFold [exRedeemNoTs, exFeeNoTs]).buckets = []
    ∧ ((lifetimeDaily [exRedeemNoTs, exFeeNoTs]).map (fun d => d.net)).sum
        = (lifetimeFold [exRedeemNoTs, exFeeNoTs]).netPnl
    ∧ getActivityNetDelta exRedeemNoTs = 5
    ∧ parseNumber exRedeemNoTs.timestamp = 0 := by
  have hred : getActivityNetDelta exRedeemNoTs = 5 := by decide
  have hfee : getActivityNetDelta exFeeNoTs = -5 := by decide
  have ht1 : parseNumber exRedeemNoTs.timestamp = 0 := by decide
  have ht2 : parseNumber exFeeNoTs.timestamp = 0 := by decide
  refine ⟨?_, ?_, ?_, hred, ht1⟩ <;>
    norm_num [lifetimeFold, lifetimeDaily, lifetimeSorted, insertionSort, insertSorted,
      List.enum, List.enumFrom, activitySortLe, lifetimeFoldStep,
      hred, hfee, ht1, ht2]

/-- C10 (amended): an event with non-positive parsed timestamp and non-zero
delta updates the running totals but no bucket; netPnl decomposes as the sum
of the daily bucket nets plus the deltas of unbucketed events; the equality
netPnl = sum of bucket nets therefore holds whenever every contributing
event has a positive timestamp (but can also hold accidentally when
unbucketed deltas cancel). -/
theorem netPnl_bucket_decomposition :
    (∀ (acc : LifetimeTotals) (a : RawActivity),
        getActivityNetDelta a ≠ 0 → ¬ 0 < parseNumber a.timestamp →
        lifetimeFoldStep acc a
          = { acc with
              netPnl := acc.netPnl + getActivityNetDelta a
              totalProfit := acc.totalProfit
                + (if getActivityNetDelta a > 0 then getActivityNetDelta a else 0)
              totalLoss := acc.totalLoss
                + (if getActivityNetDelta a > 0 then 0 else |getActivityNetDelta a|) })
    ∧ (∀ acts, (lifetimeFold acts).netPnl
        = ((lifetimeDaily acts).map (fun d => d.net)).sum
          + (((lifetimeSorted acts).filter
              (fun a => decide (getActivityNetDelta a ≠ 0 ∧ ¬ 0 < parseNumber a.timestamp))).map
              getActivityNetDelta).sum)
    ∧ (∀ acts, (∀ a ∈ acts, getActivityNetDelta a ≠ 0 → 0 < parseNumber a.timestamp) →
        (computeLifetimeAnalytics acts).netPnl
          = ((computeLifetimeAnalytics acts).daily.map (fun d => d.net)).sum) := by
  have hdaily_sum : ∀ acts, ((lifetimeDaily acts).map (fun d => d.net)).sum
      = (((lifetimeFold acts).buckets).map (fun d => d.net)).sum := by
    intro acts
    exact List.Perm.sum_eq ((insertionSort_perm bucketSortLe (lifetimeFold acts).buckets).map _)
  have hdecomp : ∀ acts, (lifetimeFold acts).netPnl
      = ((lifetimeDaily acts).map (fun d => d.net)).sum
        + (((lifetimeSorted acts).filter
            (fun a => decide (getActivityNetDelta a ≠ 0 ∧ ¬ 0 < parseNumber a.timestamp))).map
            getActivityNetDelta).sum := by
    intro acts
    rw [hdaily_sum]
    have h1 := lifetimeFold_netPnl (lifetimeSorted acts)
      { totalProfit := 0, totalLoss := 0, netPnl := 0, buckets := [] }
    have h2 := lifetimeFold_bucketSum (lifetimeSorted acts)
      { totalProfit := 0, totalLoss := 0, netPnl := 0, buckets := [] }
    have h3 := delta_sum_split (lifetimeSorted acts)
    unfold lifetimeFold
    simp only [List.map_nil, List.sum_nil, zero_add] at h1 h2
    rw [h1, h2, h3]
  refine ⟨?_, hdecomp, ?_⟩
  · intro acc a hd ht
    simp [lifetimeFoldStep, hd, ht]
  · intro acts h
    have hempty : (lifetimeSorted acts).filter
        (fun a => decide (getActivityNetDelta a ≠ 0 ∧ ¬ 0 < parseNumber a.timestamp)) = [] := by
      rw [List.filter_eq_nil_iff]
      intro a ha
      have hmem : a ∈ acts := (lifetimeSorted_perm acts).mem_iff.mp ha
      simp only [decide_eq_true_eq, not_and, not_not]
      intro hd
      exact h a hmem hd
    have := hdecomp acts
    rw [hempty] at this
    simpa using this

/-- C10 witness: with a single positively-timestamped REDEEM the netPnl
equals the bucket net sum. -/
theorem netPnl_bucket_decomposition_witness :
    (computeLifetimeAnalytics [exRedeemDay]).netPnl
      = ((computeLifetimeAnalytics [exRedeemDay]).daily.map (fun d => d.net)).sum :=
  netPnl_bucket_decomposition.2.2 [exRedeemDay] (by decide)

/-- C5 counterexample: with limit 2 and endTs 100, the server offset-mode
collector fetches page [a, b] (b filtered out of range), then page [a] again
from an overlapping feed, and returns the record with key "a" twice: it
performs no deduplication. -/
theorem range_collector_duplicate_counterexample :
    ((fetchActivityByUserWithRange exOverlapFeed
        { address := "addr", limit := 2, endTs := some 100 }).trades.map getTradeKey)
      = ["a", "a"]
    ∧ ¬ ((fetchActivityByUserWithRange exOverlapFeed
        { address := "addr", limit := 2, endTs := some 100 }).trades.map getTradeKey).Nodup := by
  constructor <;> decide

/-- The seenIds scan keeps the tracked invariants: old keys stay tracked,
the fresh records carry pairwise distinct keys, every fresh key is tracked,
and no fresh key was in the set the scan started from. -/
theorem dedup_go :
    ∀ (batch : List TradeActivity) (seen0 s : List String) (f : List TradeActivity),
      (∀ k ∈ seen0, k ∈ s) →
      (f.map getTradeKey).Nodup →
      (∀ t ∈ f, getTradeKey t ∈ s ∧ getTradeKey t ∉ seen0) →
      (∀ k ∈ seen0, k ∈ (batch.foldl dedupStep (s, f)).1)
      ∧ ((batch.foldl dedupStep (s, f)).2.map getTradeKey).Nodup
      ∧ (∀ t ∈ (batch.foldl dedupStep (s, f)).2,
          getTradeKey t ∈ (batch.foldl dedupStep (s, f)).1 ∧ getTradeKey t ∉ seen0) := by
  intro batch
  induction batch with
  | nil => intro seen0 s f h0 hnd hf; exact ⟨h0, hnd, hf⟩
  | cons b bs ih =>
    intro seen0 s f h0 hnd hf
    simp only [List.foldl_cons]
    by_cases hmem : s.contains (getTradeKey b)
    · simp only [dedupStep, if_pos hmem]
      exact ih seen0 s f h0 hnd hf
    · simp only [dedupStep, if_neg hmem]
      have hkey_notin : getTradeKey b ∉ s := by
        intro hin
        exact hmem (List.elem_iff.mpr hin)
      refine ih seen0 (getTradeKey b :: s) (f ++ [b])
        (fun k hk => List.mem_cons_of_mem _ (h0 k hk)) ?_ ?_
      · rw [List.map_append, List.nodup_append]
        refine ⟨hnd, by simp, ?_⟩
        intro x hx hx2
        simp only [List.map_cons, List.map_nil, List.mem_singleton] at hx2
        subst hx2
        simp only [List.mem_map] at hx
        obtain ⟨t, ht, hteq⟩ := hx
        exact hkey_notin (hteq ▸ (hf t ht).1)
      · intro t ht
        rcases List.mem_append.mp ht with ht | ht
        · exact ⟨List.mem_cons_of_mem _ (hf t ht).1, (hf t ht).2⟩
        · simp only [List.mem_singleton] at ht
          subst ht
          refine ⟨List.mem_cons_self _ _, ?_⟩
          intro hin
          exact hkey_notin (h0 _ hin)

/-- The seenIds scan from a fresh batch: distinct fresh keys, all tracked,
none previously seen. -/
theorem dedupBatch_spec (batch : List TradeActivity) (seen : List String) :
    (∀ k ∈ seen, k ∈ (dedupBatch seen batch).1)
    ∧ ((dedupBatch seen batch).2.map getTradeKey).Nodup
    ∧ (∀ t ∈ (dedupBatch seen batch).2,
        getTradeKey t ∈ (dedupBatch seen batch).1 ∧ getTradeKey t ∉ seen) :=
  dedup_go batch seen seen [] (fun _ hk => hk) (by simp) (by simp)

/-- Appending the fresh records of a seenIds scan to an accumulated list
whose keys are tracked keeps the keys pairwise distinct and tracked. -/
theorem dedup_append_nodup (trades batch : List TradeActivity) (seen : List String)
    (hnd : (trades.map getTradeKey).Nodup)
    (hsub : ∀ t ∈ trades, getTradeKey t ∈ seen) :
    ((trades ++ (dedupBatch seen batch).2).map getTradeKey).Nodup
    ∧ (∀ t ∈ trades ++ (dedupBatch seen batch).2,
        getTradeKey t ∈ (dedupBatch seen batch).1) := by
  have hdd := dedupBatch_spec batch seen
  constructor
  · rw [List.map_append, List.nodup_append]
    refine ⟨hnd, hdd.2.1, ?_⟩
    intro x hx hx2
    simp only [List.mem_map] at hx hx2
    obtain ⟨t, ht, hteq⟩ := hx
    obtain ⟨u, hu, hueq⟩ := hx2
    have hxseen : x ∈ seen := hteq ▸ hsub t ht
    have hynot : x ∉ seen := hueq ▸ (hdd.2.2 u hu).2
    exact hynot hxseen
  · intro t ht
    rcases List.mem_append.mp ht with ht | ht
    · exact hdd.1 _ (hsub t ht)
    · exact (hdd.2.2 t ht).1

/-- The full-export loop of the client never accumulates two records with
the same key. -/
theorem exportLoop_nodup :
    ∀ (fuel : ℕ) (feed : ℕ → List TradeActivity) (trades : List TradeActivity)
      (offset : ℕ) (seen : List String),
      (trades.map getTradeKey).Nodup →
      (∀ t ∈ trades, getTradeKey t ∈ seen) →
      ((exportLoop feed fuel trades offset seen).1.map getTradeKey).Nodup := by
  intro fuel
  induction fuel with
  | zero => intro feed trades offset seen hnd _; exact hnd
  | succ n ih =>
    intro feed trades offset seen hnd hsub
    have happ := dedup_append_nodup trades (feed offset) seen hnd hsub
    simp only [exportLoop]
    split_ifs with h1 h2 h3 h4
    · exact hnd
    · exact hnd
    · exact happ.1
    · exact happ.1
    · exact ih feed _ _ _ happ.1 happ.2

/-- The client cursor-mode range-export loop never accumulates two records
with the same key. -/
theorem rangeExportLoop_nodup :
    ∀ (fuel : ℕ) (feed : Option ℤ → ℕ → CursorPayload) (maxRows : ℕ)
      (trades : List TradeActivity) (seen : List String) (cursorEnd : Option ℤ)
      (exhausted : Bool) (safety : ℕ),
      (trades.map getTradeKey).Nodup →
      (∀ t ∈ trades, getTradeKey t ∈ seen) →
      ((rangeExportLoop feed maxRows fuel trades seen cursorEnd exhausted safety).map
        getTradeKey).Nodup := by
  intro fuel
  induction fuel with
  | zero => intro _ _ trades _ _ _ _ hnd _; exact hnd
  | succ n ih =>
    intro feed maxRows trades seen cursorEnd exhausted safety hnd hsub
    have happ := dedup_append_nodup trades
      (feed cursorEnd (min 500 (maxRows - trades.length))).trades seen hnd hsub
    simp only [rangeExportLoop]
    split_ifs with h1
    all_goals try exact hnd
    all_goals split
    all_goals try exact happ.1
    all_goals split_ifs
    all_goals first
      | exact happ.1
      | exact ih feed maxRows _ _ _ _ _ happ.1 happ.2

/-- C5 (amended): deduplication by the stable getTradeKey happens only in
the client-side loops - both the offset-mode full export and the cursor-mode
range export never return two records with the same key; the server-side
offset-range collector performs no deduplication (see the counterexample). -/
theorem client_dedup_nodup_keys :
    (∀ feed : ℕ → List TradeActivity, ((handleFullExport feed).1.map getTradeKey).Nodup)
    ∧ (∀ (feed : Option ℤ → ℕ → CursorPayload) (maxRows : ℕ) (resumeKeys : List String)
        (endTs : Option ℤ),
        ((handleRangeExport feed maxRows resumeKeys endTs).map getTradeKey).Nodup) :=
  ⟨fun feed => exportLoop_nodup _ feed [] 0 [] (by simp) (by simp),
   fun feed maxRows resumeKeys endTs =>
     rangeExportLoop_nodup _ feed maxRows [] resumeKeys endTs false 0 (by simp) (by simp)⟩

set_option maxRecDepth 100000 in
set_option maxHeartbeats 1000000 in
/-- C6: in offset mode collection stops with exhausted = true on an empty
page, on a page shorter than the requested batch limit, and (startTs set) on
a full page whose oldest timestamp precedes startTs; on the 3-page
500/500/120 feed at page limit 500 it stops after the third page with
exhausted = true and 1120 events. -/
theorem offset_mode_termination :
    (∀ (feed : ℕ → ℕ → List RawActivity) (address : String) (startTs endTs : Option ℤ)
        (slugFilter : Option String) (maxEvents fuel : ℕ) (trades : List TradeActivity)
        (off ce : ℕ),
        trades.length < maxEvents →
        feed off (min ACTIVITY_RANGE_BATCH_SIZE (maxEvents - trades.length)) = [] →
        rangeLoop feed address startTs endTs slugFilter maxEvents (fuel + 1) trades off ce
          = ⟨trades, off, true⟩)
    ∧ (∀ (feed : ℕ → ℕ → List RawActivity) (address : String) (startTs endTs : Option ℤ)
        (slugFilter : Option String) (maxEvents fuel : ℕ) (trades : List TradeActivity)
        (off ce : ℕ),
        trades.length < maxEvents →
        (feed off (min ACTIVITY_RANGE_BATCH_SIZE (maxEvents - trades.length))).length ≠ 0 →
        (feed off (min ACTIVITY_RANGE_BATCH_SIZE (maxEvents - trades.length))).length
          < min ACTIVITY_RANGE_BATCH_SIZE (maxEvents - trades.length) →
        (rangeLoop feed address startTs endTs slugFilter maxEvents (fuel + 1) trades
          off ce).exhausted = true)
    ∧ (∀ (feed : ℕ → ℕ → List RawActivity) (address : String) (s : ℤ) (endTs : Option ℤ)
        (slugFilter : Option String) (maxEvents fuel : ℕ) (trades : List TradeActivity)
        (off ce : ℕ) (o : ℤ),
        trades.length < maxEvents →
        getOldestTimestampSeconds
            (feed off (min ACTIVITY_RANGE_BATCH_SIZE (maxEvents - trades.length))) = some o →
        o < s →
        (rangeLoop feed address (some s) endTs slugFilter maxEvents (fuel + 1) trades
          off ce).exhausted = true)
    ∧ ((fetchActivityByUserWithRange exThreePageFeed
          { address := "addr", limit := 5000 }).exhausted = true
       ∧ (fetchActivityByUserWithRange exThreePageFeed
          { address := "addr", limit := 5000 }).trades.length = 1120
       ∧ (fetchActivityByUserWithRange exThreePageFeed
          { address := "addr", limit := 5000 }).nextOffset = 1120) := by
  refine ⟨?_, ?_, ?_, by decide⟩
  · intro feed address startTs endTs slugFilter maxEvents fuel trades off ce h1 hfeed
    simp [rangeLoop, if_pos h1, hfeed]
  · intro feed address startTs endTs slugFilter maxEvents fuel trades off ce h1 hne hshort
    simp only [rangeLoop, if_pos h1]
    rw [if_neg hne, if_pos hshort]
  · intro feed address s endTs slugFilter maxEvents fuel trades off ce o h1 hold ho
    simp only [rangeLoop, if_pos h1]
    by_cases hz : (feed off (min ACTIVITY_RANGE_BATCH_SIZE (maxEvents - trades.length))).length = 0
    · rw [if_pos hz]
    · rw [if_neg hz]
      by_cases hshort : (feed off (min ACTIVITY_RANGE_BATCH_SIZE (maxEvents - trades.length))).length
          < min ACTIVITY_RANGE_BATCH_SIZE (maxEvents - trades.length)
      · rw [if_pos hshort]
      · rw [if_neg hshort]
        by_cases hce : 25 ≤ (if ((feed off (min ACTIVITY_RANGE_BATCH_SIZE
            (maxEvents - trades.length))).filter
            (activityRangeFilter (some s) endTs slugFilter)).length = 0 then ce + 1 else 0)
        · rw [if_pos hce]
        · rw [if_neg hce, hold]
          simp [ho]

/-- C6 witness: the empty feed stops immediately with exhausted = true. -/
theorem offset_mode_termination_witness :
    rangeLoop (fun _ _ => []) "addr" none none none 5 1 [] 0 0
      = ⟨[], 0, true⟩ :=
  offset_mode_termination.1 (fun _ _ => []) "addr" none none none 5 0 [] 0 0
    (by decide) rfl

end PolyArb
